import Mathlib

/-!
Shallow embedding of the gesture-driven Christmas-Tree application:
the gesture classifier (`GestureService.processDetections`), the
frame-gated polling loop (`GestureService.loop` / `start` / `stop`),
and the application mode state machine (the gesture transition effect
and `handleFileUpload` in the App component).

Numeric values are modelled over `ℚ`.  The source compares
`Math.sqrt(dx^2 + dy^2) < t` for positive thresholds `t`; the embedded
classifier compares the squared distance `dx^2 + dy^2 < t^2`, which is
equivalent (lemmas `dist2_lt_sq_iff` / `dist2_gt_sq_iff` below) and keeps
every definition computable.
-/

namespace ChristmasTree

/-- One hand landmark: a 2-D point (the z coordinate is ignored by the
classifier, as in the source). -/
structure Landmark where
  x : ℚ
  y : ℚ
deriving DecidableEq, Repr

/-- The gesture labels of `GestureState['gesture']`. -/
inductive Gesture
  | Closed_Fist
  | Open_Palm
  | Pinch
  | None
deriving DecidableEq, Repr

/-- The normalized hand position `{x, y}`. -/
structure HandPosition where
  x : ℚ
  y : ℚ
deriving DecidableEq, Repr

/-- The `GestureState` record from types.ts. -/
structure GestureState where
  isHandDetected : Bool
  gesture : Gesture
  handPosition : HandPosition
deriving DecidableEq, Repr

/-- Squared Euclidean distance between two landmarks; the source computes
`Math.sqrt` of this quantity and compares it with a positive threshold. -/
def dist2 (p1 p2 : Landmark) : ℚ :=
  (p1.x - p2.x) ^ 2 + (p1.y - p2.y) ^ 2

/-- The Euclidean distance of the source's `dist` helper --
`Math.sqrt(Math.pow(p1.x - p2.x, 2) + Math.pow(p1.y - p2.y, 2))` -- is
strictly below the threshold `t`.  Prop-valued so that `Real.sqrt` needs
no executable code. -/
def eDistLt (p1 p2 : Landmark) (t : ℝ) : Prop :=
  Real.sqrt (((p1.x - p2.x : ℚ) : ℝ) ^ 2 + ((p1.y - p2.y : ℚ) : ℝ) ^ 2) < t

/-- The Euclidean distance of the source's `dist` helper is strictly above
the threshold `t`. -/
def eDistGt (p1 p2 : Landmark) (t : ℝ) : Prop :=
  t < Real.sqrt (((p1.x - p2.x : ℚ) : ℝ) ^ 2 + ((p1.y - p2.y : ℚ) : ℝ) ^ 2)

lemma sq_sum_cast (p1 p2 : Landmark) :
    ((p1.x - p2.x : ℚ) : ℝ) ^ 2 + ((p1.y - p2.y : ℚ) : ℝ) ^ 2
      = ((dist2 p1 p2 : ℚ) : ℝ) := by
  unfold dist2
  push_cast
  ring

/-- Comparing the squared distance with `t^2` is the same as comparing the
Euclidean distance with `t`, for a positive threshold `t`. -/
lemma dist2_lt_sq_iff (p1 p2 : Landmark) (t : ℚ) (ht : 0 < t) :
    dist2 p1 p2 < t ^ 2 ↔ eDistLt p1 p2 (t : ℝ) := by
  unfold eDistLt
  rw [sq_sum_cast, Real.sqrt_lt' (by exact_mod_cast ht)]
  exact_mod_cast Iff.rfl

/-- Comparing the squared distance with `t^2` is the same as comparing the
Euclidean distance with `t`, for a nonnegative threshold `t` (strictly
greater side). -/
lemma dist2_gt_sq_iff (p1 p2 : Landmark) (t : ℚ) (ht : 0 ≤ t) :
    t ^ 2 < dist2 p1 p2 ↔ eDistGt p1 p2 (t : ℝ) := by
  unfold eDistGt
  rw [sq_sum_cast, Real.lt_sqrt (by exact_mod_cast ht)]
  exact_mod_cast Iff.rfl

/-- Default landmark used when an index is out of range (a hand pose from
the landmark provider always has 21 points, so this default is never used
under the stated hypotheses). -/
def defaultLandmark : Landmark := ⟨0, 0⟩

/-- Embedding of `GestureService.processDetections`.  The input models
`result.landmarks`: a list of detected hands, each a list of landmarks.
An empty list is the no-hand case (`!result.landmarks ||
result.landmarks.length === 0`); otherwise the first hand is classified. -/
def processDetections (handsList : List (List Landmark)) : GestureState :=
  match handsList with
  | [] =>
      { isHandDetected := false
        gesture := Gesture.None
        handPosition := ⟨1/2, 1/2⟩ }
  | landmarks :: _ =>
      let xSum := (landmarks.map Landmark.x).sum
      let ySum := (landmarks.map Landmark.y).sum
      let handX := xSum / landmarks.length
      let handY := ySum / landmarks.length
      let thumbTip := landmarks.getD 4 defaultLandmark
      let indexTip := landmarks.getD 8 defaultLandmark
      let middleTip := landmarks.getD 12 defaultLandmark
      let ringTip := landmarks.getD 16 defaultLandmark
      let pinkyTip := landmarks.getD 20 defaultLandmark
      let wrist := landmarks.getD 0 defaultLandmark
      let pinchDist2 := dist2 thumbTip indexTip
      let isFist :=
        dist2 indexTip wrist < (2/10) ^ 2 ∧
        dist2 middleTip wrist < (2/10) ^ 2 ∧
        dist2 ringTip wrist < (2/10) ^ 2 ∧
        dist2 pinkyTip wrist < (2/10) ^ 2
      let isOpen :=
        (3/10) ^ 2 < dist2 indexTip wrist ∧
        (3/10) ^ 2 < dist2 middleTip wrist ∧
        (3/10) ^ 2 < dist2 ringTip wrist ∧
        (3/10) ^ 2 < dist2 pinkyTip wrist
      let detectedGesture :=
        if isFist then Gesture.Closed_Fist
        else if pinchDist2 < (8/100) ^ 2 then Gesture.Pinch
        else if isOpen then Gesture.Open_Palm
        else Gesture.None
      { isHandDetected := true
        gesture := detectedGesture
        handPosition := ⟨1 - handX, handY⟩ }

/-- Spec-side fist condition: all four non-thumb fingertips within
Euclidean distance 0.20 of the wrist. -/
def FistSpec (pose : List Landmark) : Prop :=
  eDistLt (pose.getD 8 defaultLandmark) (pose.getD 0 defaultLandmark) 0.2 ∧
  eDistLt (pose.getD 12 defaultLandmark) (pose.getD 0 defaultLandmark) 0.2 ∧
  eDistLt (pose.getD 16 defaultLandmark) (pose.getD 0 defaultLandmark) 0.2 ∧
  eDistLt (pose.getD 20 defaultLandmark) (pose.getD 0 defaultLandmark) 0.2

/-- Spec-side pinch condition: thumb tip within Euclidean distance 0.08 of
the index tip. -/
def PinchSpec (pose : List Landmark) : Prop :=
  eDistLt (pose.getD 4 defaultLandmark) (pose.getD 8 defaultLandmark) 0.08

/-- Spec-side open-palm condition: all four non-thumb fingertips beyond
Euclidean distance 0.30 from the wrist. -/
def OpenSpec (pose : List Landmark) : Prop :=
  eDistGt (pose.getD 8 defaultLandmark) (pose.getD 0 defaultLandmark) 0.3 ∧
  eDistGt (pose.getD 12 defaultLandmark) (pose.getD 0 defaultLandmark) 0.3 ∧
  eDistGt (pose.getD 16 defaultLandmark) (pose.getD 0 defaultLandmark) 0.3 ∧
  eDistGt (pose.getD 20 defaultLandmark) (pose.getD 0 defaultLandmark) 0.3

/-- Centroid x coordinate of a pose (arithmetic mean of the x values). -/
def centroidX (pose : List Landmark) : ℚ :=
  (pose.map Landmark.x).sum / pose.length

/-- Centroid y coordinate of a pose (arithmetic mean of the y values). -/
def centroidY (pose : List Landmark) : ℚ :=
  (pose.map Landmark.y).sum / pose.length

/-! ## Mode state machine (App component) -/

/-- The `AppMode` enumeration from types.ts. -/
inductive AppMode
  | TREE
  | SCATTER
  | ZOOM
deriving DecidableEq, Repr

/-- The `PhotoData` record from types.ts.  The three position/rotation triples are
generated from environment randomness at upload time and never read by
the state machine; they are carried as unread rational triples. -/
structure PhotoData where
  id : String
  url : String
  position : ℚ × ℚ × ℚ
  scatterPosition : ℚ × ℚ × ℚ
  rotation : ℚ × ℚ × ℚ
deriving DecidableEq, Repr

/-- The gesture-driven transition effect of the App component, as a pure
function from the current render's values to the next `(mode,
selectedPhotoId)` pair.  `rand` models the `Math.random()` draw used in
the Pinch branch (`randomIdx = Math.floor(Math.random() * photos.length)`);
it is a nondeterministic input in `[0, 1)`. -/
def gestureTransition (gestureState : GestureState) (mode : AppMode)
    (photos : List PhotoData) (selectedPhotoId : Option String) (rand : ℚ) :
    AppMode × Option String :=
  if gestureState.isHandDetected = false then
    if mode ≠ AppMode.TREE then (AppMode.TREE, Option.none)
    else (mode, selectedPhotoId)
  else if gestureState.gesture = Gesture.Closed_Fist ∧ mode ≠ AppMode.TREE then
    (AppMode.TREE, Option.none)
  else if gestureState.gesture = Gesture.Open_Palm then
    if mode = AppMode.TREE then (AppMode.SCATTER, selectedPhotoId)
    else (mode, selectedPhotoId)
  else if gestureState.gesture = Gesture.Pinch then
    if mode ≠ AppMode.ZOOM ∧ 0 < photos.length then
      let randomIdx := (⌊rand * photos.length⌋).toNat
      (AppMode.ZOOM,
        if selectedPhotoId = Option.none then
          (photos.get? randomIdx).map PhotoData.id
        else selectedPhotoId)
    else (mode, selectedPhotoId)
  else (mode, selectedPhotoId)

/-- The application state touched by the gesture effect and the upload
handler: current mode, photo collection, and the nullable selection. -/
structure AppState where
  mode : AppMode
  photos : List PhotoData
  selectedPhotoId : Option String
deriving DecidableEq, Repr

/-- The initial React state: mode TREE, no photos, no selection. -/
def initialState : AppState :=
  { mode := AppMode.TREE, photos := [], selectedPhotoId := Option.none }

/-- One run of the gesture transition effect applied to the whole app
state (the photo collection is not modified by the effect). -/
def applyGesture (s : AppState) (g : GestureState) (rand : ℚ) : AppState :=
  let r := gestureTransition g s.mode s.photos s.selectedPhotoId rand
  { mode := r.1, photos := s.photos, selectedPhotoId := r.2 }

/-- Embedding of `handleFileUpload`: appends the freshly constructed photos to the
collection (`setPhotos(prev => [...prev, ...newPhotos])`).  The new
photos' ids and random positions come from the environment and are passed
in as `newPhotos`. -/
def handleFileUpload (s : AppState) (newPhotos : List PhotoData) : AppState :=
  { mode := s.mode, photos := s.photos ++ newPhotos,
    selectedPhotoId := s.selectedPhotoId }

/-- The states reachable from the initial state by gesture updates (with
a random draw in `[0,1)`) and photo uploads. -/
inductive Reachable : AppState → Prop
  | init : Reachable initialState
  | gesture (s : AppState) (g : GestureState) (rand : ℚ) :
      0 ≤ rand → rand < 1 → Reachable s → Reachable (applyGesture s g rand)
  | upload (s : AppState) (newPhotos : List PhotoData) :
      Reachable s → Reachable (handleFileUpload s newPhotos)

/-- The selected-photo invariant: a non-null selection implies mode ZOOM
and that the selected id belongs to some photo in the collection. -/
def SelInv (s : AppState) : Prop :=
  ∀ pid, s.selectedPhotoId = Option.some pid →
    s.mode = AppMode.ZOOM ∧ ∃ p ∈ s.photos, p.id = pid

/-! ## GestureService: polling loop and lifecycle

The service is modelled as a state machine.  Per-tick facts supplied by
the environment (the video element's readiness fields and playback time,
and the landmark provider's outcome) are inputs to each step.  The
`requestAnimationFrame` scheduler is modelled by a `pending` flag (a
callback is enqueued), the returned handle (`requestRef`), and a counter
allocating fresh nonzero handles. -/

/-- The per-tick view of the video element: `readyState`, `videoWidth`,
`videoHeight`, `currentTime`. -/
structure VideoFrame where
  readyState : ℕ
  videoWidth : ℕ
  videoHeight : ℕ
  currentTime : ℚ
deriving DecidableEq, Repr

/-- Outcome of one `detectForVideo` call: either the call throws, or it
returns a result whose `landmarks` field is a list of hands. -/
inductive DetectOutcome
  | throws
  | ok (hands : List (List Landmark))
deriving DecidableEq, Repr

/-- The mutable fields of `GestureService`, plus the scheduler model.
`initialized` is `handLandmarker !== null`; `videoAttached` is
`this.video !== null`; `pending` records whether the callback scheduled
under handle `requestRef` is still enqueued. -/
structure ServiceState where
  initialized : Bool
  videoAttached : Bool
  lastVideoTime : ℚ
  requestRef : Option ℕ
  pending : Bool
  nextId : ℕ
deriving DecidableEq, Repr

/-- A freshly constructed service: `lastVideoTime = -1`, no handle, no
model, no video, nothing scheduled.  Scheduler handles start at 1
(`requestAnimationFrame` never returns 0). -/
def newService : ServiceState :=
  { initialized := false, videoAttached := false, lastVideoTime := -1,
    requestRef := Option.none, pending := false, nextId := 1 }

/-- Completion of `initialize()`: the landmark provider becomes available. -/
def finishInit (st : ServiceState) : ServiceState :=
  { st with initialized := true }

/-- Result of running the loop body once: the new service state, the
`onResult` callback invocations made (in order), and the number of
`detectForVideo` calls made. -/
structure TickResult where
  state : ServiceState
  published : List GestureState
  detectCalls : ℕ
deriving DecidableEq, Repr

/-- The body of `GestureService.loop`: gate on video/model presence and
frame validity (ready state at least 2, nonzero dimensions, playback time
different from the last processed time); on an accepted frame record the
time, call the provider and either classify-and-publish or swallow the
thrown error; in every case re-enqueue itself via
`requestAnimationFrame`. -/
def loopBody (st : ServiceState) (frame : VideoFrame) (outcome : DetectOutcome) :
    TickResult :=
  let inner : ServiceState × List GestureState × ℕ :=
    if st.videoAttached = true ∧ st.initialized = true then
      if 2 ≤ frame.readyState ∧ 0 < frame.videoWidth ∧ 0 < frame.videoHeight ∧
          frame.currentTime ≠ st.lastVideoTime then
        let st1 := { st with lastVideoTime := frame.currentTime }
        match outcome with
        | DetectOutcome.throws => (st1, [], 1)
        | DetectOutcome.ok hands => (st1, [processDetections hands], 1)
      else (st, [], 0)
    else (st, [], 0)
  let st2 := inner.1
  { state := { st2 with
                 requestRef := Option.some st2.nextId
                 pending := true
                 nextId := st2.nextId + 1 }
    published := inner.2.1
    detectCalls := inner.2.2 }

/-- Embedding of `start(videoElement)`: store the video and run the loop body once
synchronously. -/
def start (st : ServiceState) (frame : VideoFrame) (outcome : DetectOutcome) :
    TickResult :=
  loopBody { st with videoAttached := true } frame outcome

/-- Embedding of `stop()`: if the stored handle is truthy, cancel the enqueued
callback.  Nothing else is touched (in particular the handle itself and
`lastVideoTime` are kept). -/
def stop (st : ServiceState) : ServiceState :=
  match st.requestRef with
  | Option.some id => if id ≠ 0 then { st with pending := false } else st
  | Option.none => st

/-- The scheduler fires the enqueued callback: only possible while
`pending`; firing dequeues it, then runs the loop body (which re-enqueues). -/
def tick (st : ServiceState) (frame : VideoFrame) (outcome : DetectOutcome) :
    TickResult :=
  if st.pending = true then loopBody { st with pending := false } frame outcome
  else { state := st, published := [], detectCalls := 0 }

/-- External events driving a service instance. -/
inductive Event
  | startEv (frame : VideoFrame) (outcome : DetectOutcome)
  | stopEv
  | tickEv (frame : VideoFrame) (outcome : DetectOutcome)
  | initEv
deriving DecidableEq, Repr

/-- One event applied to a service state: the new state and the callback
invocations it produced. -/
def stepEv (st : ServiceState) : Event → ServiceState × List GestureState
  | Event.startEv frame outcome =>
      let r := start st frame outcome
      (r.state, r.published)
  | Event.stopEv => (stop st, [])
  | Event.tickEv frame outcome =>
      let r := tick st frame outcome
      (r.state, r.published)
  | Event.initEv => (finishInit st, [])

/-- A sequence of events applied in order; collects all callback
invocations. -/
def runEvents (st : ServiceState) : List Event → ServiceState × List GestureState
  | [] => (st, [])
  | e :: es =>
      let r := stepEv st e
      let rest := runEvents r.1 es
      (rest.1, r.2 ++ rest.2)

/-- Events that are not a `start()` call. -/
def NotStart : Event → Prop
  | Event.startEv _ _ => False
  | _ => True

/-! ## Theorems -/

lemma fist_bridge (pose : List Landmark) :
    FistSpec pose ↔
      (dist2 (pose.getD 8 defaultLandmark) (pose.getD 0 defaultLandmark) < (2/10) ^ 2 ∧
       dist2 (pose.getD 12 defaultLandmark) (pose.getD 0 defaultLandmark) < (2/10) ^ 2 ∧
       dist2 (pose.getD 16 defaultLandmark) (pose.getD 0 defaultLandmark) < (2/10) ^ 2 ∧
       dist2 (pose.getD 20 defaultLandmark) (pose.getD 0 defaultLandmark) < (2/10) ^ 2) := by
  have h2 : ((2/10 : ℚ) : ℝ) = 0.2 := by norm_num
  unfold FistSpec
  rw [← h2, ← dist2_lt_sq_iff _ _ _ (by norm_num), ← dist2_lt_sq_iff _ _ _ (by norm_num),
      ← dist2_lt_sq_iff _ _ _ (by norm_num), ← dist2_lt_sq_iff _ _ _ (by norm_num)]

lemma pinch_bridge (pose : List Landmark) :
    PinchSpec pose ↔
      dist2 (pose.getD 4 defaultLandmark) (pose.getD 8 defaultLandmark) < (8/100) ^ 2 := by
  have h2 : ((8/100 : ℚ) : ℝ) = 0.08 := by norm_num
  unfold PinchSpec
  rw [← h2, ← dist2_lt_sq_iff _ _ _ (by norm_num)]

lemma open_bridge (pose : List Landmark) :
    OpenSpec pose ↔
      ((3/10) ^ 2 < dist2 (pose.getD 8 defaultLandmark) (pose.getD 0 defaultLandmark) ∧
       (3/10) ^ 2 < dist2 (pose.getD 12 defaultLandmark) (pose.getD 0 defaultLandmark) ∧
       (3/10) ^ 2 < dist2 (pose.getD 16 defaultLandmark) (pose.getD 0 defaultLandmark) ∧
       (3/10) ^ 2 < dist2 (pose.getD 20 defaultLandmark) (pose.getD 0 defaultLandmark)) := by
  have h2 : ((3/10 : ℚ) : ℝ) = 0.3 := by norm_num
  unfold OpenSpec
  rw [← h2, ← dist2_gt_sq_iff _ _ _ (by norm_num), ← dist2_gt_sq_iff _ _ _ (by norm_num),
      ← dist2_gt_sq_iff _ _ _ (by norm_num), ← dist2_gt_sq_iff _ _ _ (by norm_num)]

/-- C1: for a detected hand pose of 21 landmarks the classifier reports
`isHandDetected = true`, `handPosition = (1 - cx, cy)` for the landmark
centroid `(cx, cy)`, and the gesture chosen by the first matching rule
(fist before pinch before open palm, Euclidean-distance thresholds 0.20,
0.08, 0.30); for a null input it returns exactly
`{isHandDetected: false, gesture: None, handPosition: (0.5, 0.5)}`. -/
theorem c1_classifier_spec (pose : List Landmark) (h : pose.length = 21) :
    processDetections [] =
      { isHandDetected := false, gesture := Gesture.None,
        handPosition := ⟨1/2, 1/2⟩ } ∧
    (processDetections [pose]).isHandDetected = true ∧
    (processDetections [pose]).handPosition =
      ⟨1 - centroidX pose, centroidY pose⟩ ∧
    ((processDetections [pose]).gesture = Gesture.Closed_Fist ↔ FistSpec pose) ∧
    ((processDetections [pose]).gesture = Gesture.Pinch ↔
      ¬ FistSpec pose ∧ PinchSpec pose) ∧
    ((processDetections [pose]).gesture = Gesture.Open_Palm ↔
      ¬ FistSpec pose ∧ ¬ PinchSpec pose ∧ OpenSpec pose) := by
  rw [fist_bridge, pinch_bridge, open_bridge]
  refine ⟨rfl, rfl, rfl, ?_, ?_, ?_⟩ <;>
    · simp only [processDetections, centroidX, centroidY]
      split_ifs <;> simp_all

/-- Witness for C1: a concrete 21-landmark pose (all landmarks at the
origin) satisfies the length hypothesis and the theorem applies. -/
theorem c1_classifier_spec_witness :
    (List.replicate 21 defaultLandmark).length = 21 ∧
    (processDetections [List.replicate 21 defaultLandmark]).isHandDetected = true :=
  ⟨by decide, (c1_classifier_spec (List.replicate 21 defaultLandmark) (by decide)).2.1⟩

lemma list_sum_nonneg {l : List ℚ} (h : ∀ x ∈ l, 0 ≤ x) : 0 ≤ l.sum := by
  have := List.card_nsmul_le_sum l 0 h
  simpa using this

lemma list_sum_le_length {l : List ℚ} (h : ∀ x ∈ l, x ≤ 1) :
    l.sum ≤ (l.length : ℚ) := by
  have := List.sum_le_card_nsmul l 1 h
  simpa using this

lemma centroid_mem_unit {l : List ℚ} (h : ∀ x ∈ l, 0 ≤ x ∧ x ≤ 1) :
    0 ≤ l.sum / (l.length : ℚ) ∧ l.sum / (l.length : ℚ) ≤ 1 := by
  rcases Nat.eq_zero_or_pos l.length with h0 | hpos
  · simp [h0]
  · have hlen : (0 : ℚ) < (l.length : ℚ) := by exact_mod_cast hpos
    constructor
    · exact div_nonneg (list_sum_nonneg fun x hx => (h x hx).1) hlen.le
    · rw [div_le_one hlen]
      exact list_sum_le_length fun x hx => (h x hx).2

/-- C6: for every classifier input (null, or any hand pose whose 21
landmarks all lie in the unit square) the returned hand position lies in
`[0,1] × [0,1]`. -/
theorem c6_handPosition_unit_box (hands : List (List Landmark))
    (h : ∀ pose ∈ hands, pose.length = 21 ∧
          ∀ l ∈ pose, (0 ≤ l.x ∧ l.x ≤ 1) ∧ (0 ≤ l.y ∧ l.y ≤ 1)) :
    0 ≤ (processDetections hands).handPosition.x ∧
    (processDetections hands).handPosition.x ≤ 1 ∧
    0 ≤ (processDetections hands).handPosition.y ∧
    (processDetections hands).handPosition.y ≤ 1 := by
  cases hands with
  | nil => norm_num [processDetections]
  | cons pose rest =>
    obtain ⟨hlen, hbox⟩ := h pose (List.mem_cons_self _ _)
    have hx : 0 ≤ (pose.map Landmark.x).sum / ((pose.map Landmark.x).length : ℚ) ∧
        (pose.map Landmark.x).sum / ((pose.map Landmark.x).length : ℚ) ≤ 1 := by
      refine centroid_mem_unit ?_
      intro v hv
      obtain ⟨l, hl, rfl⟩ := List.mem_map.mp hv
      exact (hbox l hl).1
    have hy : 0 ≤ (pose.map Landmark.y).sum / ((pose.map Landmark.y).length : ℚ) ∧
        (pose.map Landmark.y).sum / ((pose.map Landmark.y).length : ℚ) ≤ 1 := by
      refine centroid_mem_unit ?_
      intro v hv
      obtain ⟨l, hl, rfl⟩ := List.mem_map.mp hv
      exact (hbox l hl).2
    simp only [List.length_map] at hx hy
    have hxval : (processDetections (pose :: rest)).handPosition.x
        = 1 - (pose.map Landmark.x).sum / (pose.length : ℚ) := rfl
    have hyval : (processDetections (pose :: rest)).handPosition.y
        = (pose.map Landmark.y).sum / (pose.length : ℚ) := rfl
    rw [hxval, hyval]
    constructor
    · linarith [hx.2]
    constructor
    · linarith [hx.1]
    exact ⟨hy.1, hy.2⟩

/-- Witness for C6: the singleton input consisting of one 21-landmark
pose inside the unit square satisfies the hypothesis and the theorem
applies. -/
theorem c6_handPosition_unit_box_witness :
    (∀ pose ∈ [List.replicate 21 defaultLandmark], pose.length = 21 ∧
      ∀ l ∈ pose, (0 ≤ l.x ∧ l.x ≤ 1) ∧ (0 ≤ l.y ∧ l.y ≤ 1)) ∧
    0 ≤ (processDetections [List.replicate 21 defaultLandmark]).handPosition.x :=
  ⟨by decide, (c6_handPosition_unit_box [List.replicate 21 defaultLandmark]
    (by decide)).1⟩

/-- C2: hand loss and fist both send the machine to TREE and clear the
selection, provided the mode is not already TREE; when the mode is TREE
these two rules change nothing. -/
theorem c2_hand_loss_and_fist (g : GestureState) (mode : AppMode)
    (photos : List PhotoData) (sel : Option String) (rand : ℚ) :
    (g.isHandDetected = false → mode ≠ AppMode.TREE →
      gestureTransition g mode photos sel rand = (AppMode.TREE, Option.none)) ∧
    (g.isHandDetected = true → g.gesture = Gesture.Closed_Fist →
      mode ≠ AppMode.TREE →
      gestureTransition g mode photos sel rand = (AppMode.TREE, Option.none)) ∧
    (mode = AppMode.TREE →
      (g.isHandDetected = false ∨ g.gesture = Gesture.Closed_Fist) →
      gestureTransition g mode photos sel rand = (mode, sel)) := by
  refine ⟨?_, ?_, ?_⟩
  · intro hd hm
    simp [gestureTransition, hd, hm]
  · intro hd hg hm
    simp [gestureTransition, hd, hg, hm]
  · rintro hm (hd | hg)
    · simp [gestureTransition, hd, hm]
    · rcases hb : g.isHandDetected with _ | _
      · simp [gestureTransition, hb, hm]
      · simp [gestureTransition, hb, hg, hm]

/-- Witness for C2: from SCATTER, losing the hand returns to TREE with
the selection cleared. -/
theorem c2_hand_loss_and_fist_witness :
    gestureTransition ⟨false, Gesture.None, ⟨1/2, 1/2⟩⟩ AppMode.SCATTER []
      (Option.some "p") 0 = (AppMode.TREE, Option.none) :=
  (c2_hand_loss_and_fist ⟨false, Gesture.None, ⟨1/2, 1/2⟩⟩ AppMode.SCATTER []
    (Option.some "p") 0).1 rfl (by decide)

lemma randomIdx_lt (n : ℕ) (hn : 0 < n) (rand : ℚ) (h0 : 0 ≤ rand)
    (h1 : rand < 1) : (⌊rand * (n : ℚ)⌋).toNat < n := by
  have hnq : (0 : ℚ) < (n : ℚ) := by exact_mod_cast hn
  have hlt : rand * (n : ℚ) < (n : ℚ) := by
    calc rand * (n : ℚ) < 1 * (n : ℚ) := by
          exact mul_lt_mul_of_pos_right h1 hnq
      _ = (n : ℚ) := one_mul _
  have hfl : ⌊rand * (n : ℚ)⌋ < (n : ℤ) := by
    rw [Int.floor_lt]
    exact_mod_cast hlt
  have hge : (0 : ℤ) ≤ ⌊rand * (n : ℚ)⌋ :=
    Int.floor_nonneg.mpr (mul_nonneg h0 hnq.le)
  omega

/-- C3: on a detected Pinch, entering Zoom from a non-Zoom mode with a
nonempty collection sets the mode to ZOOM and assigns a selection drawn
from the current collection exactly when none was held; every photo of
the collection is a possible draw; a Pinch while already in ZOOM changes
nothing. -/
theorem c3_pinch (g : GestureState) (mode : AppMode) (photos : List PhotoData)
    (sel : Option String) (rand : ℚ) (hd : g.isHandDetected = true)
    (hg : g.gesture = Gesture.Pinch) :
    (mode = AppMode.ZOOM →
      gestureTransition g mode photos sel rand = (mode, sel)) ∧
    (mode ≠ AppMode.ZOOM → 0 < photos.length → 0 ≤ rand → rand < 1 →
      (gestureTransition g mode photos sel rand).1 = AppMode.ZOOM ∧
      (sel ≠ Option.none →
        (gestureTransition g mode photos sel rand).2 = sel) ∧
      (sel = Option.none → ∃ i : Fin photos.length,
        (gestureTransition g mode photos sel rand).2 =
          Option.some (photos.get i).id)) ∧
    (mode ≠ AppMode.ZOOM → 0 < photos.length →
      ∀ i : Fin photos.length, ∃ r : ℚ, 0 ≤ r ∧ r < 1 ∧
        (gestureTransition g mode photos Option.none r).2 =
          Option.some (photos.get i).id) := by
  have hfist : ¬ (g.gesture = Gesture.Closed_Fist ∧ mode ≠ AppMode.TREE) := by
    rw [hg]; rintro ⟨h, -⟩; cases h
  have hopen : ¬ g.gesture = Gesture.Open_Palm := by rw [hg]; rintro h; cases h
  refine ⟨?_, ?_, ?_⟩
  · intro hm
    simp [gestureTransition, hd, hfist, hopen, hg, hm]
  · intro hm hlen h0 h1
    have hidx : (⌊rand * (photos.length : ℚ)⌋).toNat < photos.length :=
      randomIdx_lt photos.length hlen rand h0 h1
    rcases sel with _ | pid
    · refine ⟨?_, ?_, ?_⟩
      · simp [gestureTransition, hd, hfist, hopen, hg, hm, hlen]
      · intro hne; cases hne rfl
      · intro _
        refine ⟨⟨(⌊rand * (photos.length : ℚ)⌋).toNat, hidx⟩, ?_⟩
        simp [gestureTransition, hd, hfist, hopen, hg, hm, hlen,
          List.getElem?_eq_getElem hidx]
    · refine ⟨?_, ?_, ?_⟩
      · simp [gestureTransition, hd, hfist, hopen, hg, hm, hlen]
      · intro _
        simp [gestureTransition, hd, hfist, hopen, hg, hm, hlen]
      · intro hne; cases hne
  · intro hm hlen i
    refine ⟨(i : ℚ) / (photos.length : ℚ), ?_, ?_, ?_⟩
    · positivity
    · rw [div_lt_one (by exact_mod_cast hlen)]
      exact_mod_cast i.isLt
    · have hnq : ((photos.length : ℚ)) ≠ 0 := by
        exact_mod_cast hlen.ne'
      have hidx : (⌊(i : ℚ) / (photos.length : ℚ) * (photos.length : ℚ)⌋).toNat
          = (i : ℕ) := by
        rw [div_mul_cancel₀ _ hnq]
        simp
      simp [gestureTransition, hd, hfist, hopen, hg, hm, hlen, hidx,
        List.getElem?_eq_getElem i.isLt]

/-- A concrete photo used by witnesses. -/
def wPhoto : PhotoData :=
  { id := "a", url := "u", position := (0, 0, 0),
    scatterPosition := (0, 0, 0), rotation := (0, 0, 0) }

/-- Witness for C3: a detected Pinch from TREE with one photo and no
selection enters ZOOM. -/
theorem c3_pinch_witness :
    (gestureTransition ⟨true, Gesture.Pinch, ⟨0, 0⟩⟩ AppMode.TREE [wPhoto]
      Option.none 0).1 = AppMode.ZOOM :=
  ((c3_pinch ⟨true, Gesture.Pinch, ⟨0, 0⟩⟩ AppMode.TREE [wPhoto] Option.none 0
    rfl rfl).2.1 (by decide) (by decide) (by norm_num) (by norm_num)).1

/-- No transition rule of the mode machine applies to the given gesture
state, mode and photo count. -/
def NoRuleMatches (g : GestureState) (mode : AppMode)
    (photos : List PhotoData) : Prop :=
  (g.isHandDetected = false → mode = AppMode.TREE) ∧
  (g.isHandDetected = true →
    (g.gesture = Gesture.Closed_Fist → mode = AppMode.TREE) ∧
    (g.gesture = Gesture.Open_Palm → mode ≠ AppMode.TREE) ∧
    (g.gesture = Gesture.Pinch → ¬(mode ≠ AppMode.ZOOM ∧ 0 < photos.length)))

/-- C4: a detected Open_Palm in TREE moves the machine to SCATTER (keeping
the selection), and a gesture state matching none of the four transition
rules leaves mode and selection unchanged. -/
theorem c4_open_palm_and_no_rule (g : GestureState) (mode : AppMode)
    (photos : List PhotoData) (sel : Option String) (rand : ℚ) :
    (g.isHandDetected = true → g.gesture = Gesture.Open_Palm →
      mode = AppMode.TREE →
      gestureTransition g mode photos sel rand = (AppMode.SCATTER, sel)) ∧
    (NoRuleMatches g mode photos →
      gestureTransition g mode photos sel rand = (mode, sel)) := by
  constructor
  · intro hd hg hm
    have hfist : ¬(g.gesture = Gesture.Closed_Fist ∧ mode ≠ AppMode.TREE) := by
      rw [hg]; rintro ⟨hc, -⟩; cases hc
    simp [gestureTransition, hd, hfist, hg, hm]
  · rintro ⟨h1, h2⟩
    rcases hb : g.isHandDetected with _ | _
    · simp [gestureTransition, hb, h1 hb]
    · obtain ⟨hf, ho, hp⟩ := h2 hb
      rcases hgest : g.gesture with _ | _ | _ | _
      · have hm := hf hgest
        simp [gestureTransition, hb, hgest, hm]
      · have hm := ho hgest
        simp [gestureTransition, hb, hgest, hm]
      · have hz := hp hgest
        have hfist : ¬(g.gesture = Gesture.Closed_Fist ∧ mode ≠ AppMode.TREE) := by
          rw [hgest]; rintro ⟨hc, -⟩; cases hc
        simp [gestureTransition, hb, hgest, hfist, hz]
      · have hfist : ¬(g.gesture = Gesture.Closed_Fist ∧ mode ≠ AppMode.TREE) := by
          rw [hgest]; rintro ⟨hc, -⟩; cases hc
        simp [gestureTransition, hb, hgest, hfist]

/-- Witness for C4: a detected Open_Palm in TREE yields SCATTER. -/
theorem c4_open_palm_and_no_rule_witness :
    gestureTransition ⟨true, Gesture.Open_Palm, ⟨0, 0⟩⟩ AppMode.TREE []
      Option.none 0 = (AppMode.SCATTER, Option.none) :=
  (c4_open_palm_and_no_rule ⟨true, Gesture.Open_Palm, ⟨0, 0⟩⟩ AppMode.TREE []
    Option.none 0).1 rfl rfl rfl

lemma gestureTransition_shape (g : GestureState) (mode : AppMode)
    (photos : List PhotoData) (sel : Option String) (rand : ℚ) :
    gestureTransition g mode photos sel rand = (AppMode.TREE, Option.none) ∨
    gestureTransition g mode photos sel rand = (mode, sel) ∨
    (mode = AppMode.TREE ∧
      gestureTransition g mode photos sel rand = (AppMode.SCATTER, sel)) ∨
    ((gestureTransition g mode photos sel rand).1 = AppMode.ZOOM ∧
      ((gestureTransition g mode photos sel rand).2 = sel ∨
       (gestureTransition g mode photos sel rand).2 = Option.none ∨
       ∃ p ∈ photos,
         (gestureTransition g mode photos sel rand).2 = Option.some p.id)) := by
  unfold gestureTransition
  split_ifs with hhand hmode hfist hpalm htree hpinch hzoom hsel
  · exact Or.inl rfl
  · exact Or.inr (Or.inl rfl)
  · exact Or.inl rfl
  · exact Or.inr (Or.inr (Or.inl ⟨htree, rfl⟩))
  · exact Or.inr (Or.inl rfl)
  · refine Or.inr (Or.inr (Or.inr ⟨rfl, ?_⟩))
    rcases hq : photos.get? ((⌊rand * (photos.length : ℚ)⌋).toNat) with _ | p
    · refine Or.inr (Or.inl ?_)
      rw [List.get?_eq_getElem?] at hq
      simp [hq]
    · refine Or.inr (Or.inr ⟨p, List.get?_mem hq, ?_⟩)
      rw [List.get?_eq_getElem?] at hq
      simp [hq]
  · exact Or.inr (Or.inr (Or.inr ⟨rfl, Or.inl rfl⟩))
  · exact Or.inr (Or.inl rfl)
  · exact Or.inr (Or.inl rfl)

lemma applyGesture_selInv (s : AppState) (g : GestureState) (rand : ℚ)
    (ih : SelInv s) : SelInv (applyGesture s g rand) := by
  intro pid hpid
  have hshape := gestureTransition_shape g s.mode s.photos s.selectedPhotoId rand
  simp only [applyGesture] at hpid ⊢
  rcases hshape with heq | heq | ⟨htree, heq⟩ | ⟨hzoom, hsel⟩
  · rw [heq] at hpid; cases hpid
  · rw [heq] at hpid ⊢
    obtain ⟨hm, p, hp, hid⟩ := ih pid hpid
    exact ⟨hm, p, hp, hid⟩
  · rw [heq] at hpid
    obtain ⟨hm, -⟩ := ih pid hpid
    rw [htree] at hm; cases hm
  · refine ⟨hzoom, ?_⟩
    rcases hsel with hs2 | hs2 | ⟨p, hp, hs2⟩
    · rw [hs2] at hpid
      obtain ⟨-, p, hp, hid⟩ := ih pid hpid
      exact ⟨p, hp, hid⟩
    · rw [hs2] at hpid; cases hpid
    · rw [hs2] at hpid
      injection hpid with hid
      exact ⟨p, hp, hid⟩

lemma upload_selInv (s : AppState) (ps : List PhotoData) (ih : SelInv s) :
    SelInv (handleFileUpload s ps) := by
  intro pid hpid
  obtain ⟨hm, p, hp, hid⟩ := ih pid hpid
  exact ⟨hm, p, List.mem_append_left _ hp, hid⟩

/-- C5: in every reachable application state the selection is non-null
only in ZOOM mode and then names a photo of the current collection; the
invariant holds initially and is preserved by gesture updates and by
uploads, which only append to the collection. -/
theorem c5_selected_photo_invariant :
    (∀ s : AppState, Reachable s → SelInv s) ∧
    SelInv initialState ∧
    (∀ (s : AppState) (ps : List PhotoData),
      (handleFileUpload s ps).photos = s.photos ++ ps) := by
  have hmain : ∀ s : AppState, Reachable s → SelInv s := by
    intro s h
    induction h with
    | init => intro pid hpid; cases hpid
    | gesture s g rand h0 h1 hs ih => exact applyGesture_selInv s g rand ih
    | upload s ps hs ih => exact upload_selInv s ps ih
  exact ⟨hmain, hmain initialState Reachable.init, fun s ps => rfl⟩

/-- Witness for C5: the theorem applies to the initial state, which is
reachable. -/
theorem c5_selected_photo_invariant_witness : SelInv initialState :=
  c5_selected_photo_invariant.1 initialState Reachable.init

lemma loopBody_skip (st : ServiceState) (f : VideoFrame) (o : DetectOutcome)
    (h : ¬(st.videoAttached = true ∧ st.initialized = true) ∨
         ¬(2 ≤ f.readyState ∧ 0 < f.videoWidth ∧ 0 < f.videoHeight ∧
           f.currentTime ≠ st.lastVideoTime)) :
    (loopBody st f o).detectCalls = 0 ∧
    (loopBody st f o).published = [] ∧
    (loopBody st f o).state.lastVideoTime = st.lastVideoTime ∧
    (loopBody st f o).state.pending = true ∧
    (loopBody st f o).state.requestRef = Option.some st.nextId := by
  rcases h with h | h
  · simp [loopBody, h]
  · unfold loopBody
    by_cases h1 : st.videoAttached = true ∧ st.initialized = true
    · rw [if_pos h1, if_neg h]
      simp
    · rw [if_neg h1]
      simp

lemma loopBody_accept (st : ServiceState) (f : VideoFrame) (o : DetectOutcome)
    (hv : st.videoAttached = true) (hi : st.initialized = true)
    (hr : 2 ≤ f.readyState) (hw : 0 < f.videoWidth) (hh : 0 < f.videoHeight)
    (ht : f.currentTime ≠ st.lastVideoTime) :
    (loopBody st f o).detectCalls = 1 ∧
    (loopBody st f o).state.lastVideoTime = f.currentTime ∧
    (loopBody st f o).state.pending = true := by
  unfold loopBody
  rw [if_pos ⟨hv, hi⟩, if_pos ⟨hr, hw, hh, ht⟩]
  cases o <;> simp

lemma loopBody_calls_le_one (st : ServiceState) (f : VideoFrame)
    (o : DetectOutcome) : (loopBody st f o).detectCalls ≤ 1 := by
  unfold loopBody
  split_ifs <;> cases o <;> simp

lemma loopBody_sched (st : ServiceState) (f : VideoFrame) (o : DetectOutcome) :
    (loopBody st f o).state.requestRef = Option.some st.nextId ∧
    (loopBody st f o).state.nextId = st.nextId + 1 := by
  unfold loopBody
  split_ifs <;> cases o <;> simp

lemma tick_not_pending (st : ServiceState) (f : VideoFrame) (o : DetectOutcome)
    (hp : st.pending = false) :
    tick st f o = { state := st, published := [], detectCalls := 0 } := by
  simp [tick, hp]

lemma tick_calls_zero_of_time_eq (st : ServiceState) (f : VideoFrame)
    (o : DetectOutcome) (h : f.currentTime = st.lastVideoTime) :
    (tick st f o).detectCalls = 0 := by
  unfold tick
  split_ifs with hp
  · exact (loopBody_skip _ _ _ (Or.inr (by simp [h]))).1
  · simp

lemma tick_calls_le_one (st : ServiceState) (f : VideoFrame)
    (o : DetectOutcome) : (tick st f o).detectCalls ≤ 1 := by
  unfold tick
  split_ifs
  · exact loopBody_calls_le_one _ _ _
  · simp

/-- C7: a tick whose frame repeats the last-processed playback time, or
lacks a valid decoded frame (ready state below 2, or zero width or
height), makes no detection call and publishes nothing; and two
consecutive scheduler ticks reporting the same playback time make at most
one detection call in total. -/
theorem c7_frame_dedup (st : ServiceState) (f1 f2 : VideoFrame)
    (o1 o2 : DetectOutcome) :
    ((f1.currentTime = st.lastVideoTime ∨ f1.readyState < 2 ∨
      f1.videoWidth = 0 ∨ f1.videoHeight = 0) →
      (loopBody st f1 o1).detectCalls = 0 ∧
      (loopBody st f1 o1).published = [] ∧
      (loopBody st f1 o1).state.lastVideoTime = st.lastVideoTime) ∧
    (f1.currentTime = f2.currentTime →
      (tick st f1 o1).detectCalls +
        (tick (tick st f1 o1).state f2 o2).detectCalls ≤ 1) := by
  constructor
  · intro h
    have hgate : ¬(2 ≤ f1.readyState ∧ 0 < f1.videoWidth ∧ 0 < f1.videoHeight ∧
        f1.currentTime ≠ st.lastVideoTime) := by
      rcases h with h | h | h | h
      · rintro ⟨-, -, -, hne⟩; exact hne h
      · rintro ⟨hr, -, -, -⟩; omega
      · rintro ⟨-, hw, -, -⟩; omega
      · rintro ⟨-, -, hh, -⟩; omega
    obtain ⟨h1, h2, h3, -, -⟩ := loopBody_skip st f1 o1 (Or.inr hgate)
    exact ⟨h1, h2, h3⟩
  · intro heq
    rcases hp : st.pending with _ | _
    · rw [tick_not_pending st f1 o1 hp]
      rw [tick_not_pending st f2 o2 hp]
      simp
    · have htick1 : tick st f1 o1 = loopBody { st with pending := false } f1 o1 := by
        simp [tick, hp]
      rw [htick1]
      by_cases hacc : ({ st with pending := false } : ServiceState).videoAttached = true ∧
          ({ st with pending := false } : ServiceState).initialized = true ∧
          2 ≤ f1.readyState ∧ 0 < f1.videoWidth ∧ 0 < f1.videoHeight ∧
          f1.currentTime ≠ ({ st with pending := false } : ServiceState).lastVideoTime
      · obtain ⟨hv, hi, hr, hw, hh, ht⟩ := hacc
        obtain ⟨hc1, hlast, -⟩ :=
          loopBody_accept { st with pending := false } f1 o1 hv hi hr hw hh ht
        have hc2 : (tick (loopBody { st with pending := false } f1 o1).state f2 o2).detectCalls = 0 := by
          apply tick_calls_zero_of_time_eq
          rw [hlast, ← heq]
        omega
      · have hc1 : (loopBody { st with pending := false } f1 o1).detectCalls = 0 := by
          refine (loopBody_skip _ _ _ ?_).1
          by_cases h1 : ({ st with pending := false } : ServiceState).videoAttached = true ∧
              ({ st with pending := false } : ServiceState).initialized = true
          · right
            intro h2
            exact hacc ⟨h1.1, h1.2, h2.1, h2.2.1, h2.2.2.1, h2.2.2.2⟩
          · exact Or.inl h1
        have hc2 := tick_calls_le_one
          (loopBody { st with pending := false } f1 o1).state f2 o2
        omega

/-- A frame that repeats the initial marker time and is not yet decoded;
used by witnesses. -/
def wSkipFrame : VideoFrame :=
  { readyState := 0, videoWidth := 0, videoHeight := 0, currentTime := -1 }

/-- Witness for C7: on a fresh service, a tick whose frame repeats the
initial marker time makes no detection call. -/
theorem c7_frame_dedup_witness :
    (loopBody newService wSkipFrame DetectOutcome.throws).detectCalls = 0 :=
  ((c7_frame_dedup newService wSkipFrame wSkipFrame DetectOutcome.throws
    DetectOutcome.throws).1 (Or.inl rfl)).1

/-- C8: if the landmark-provider call throws on an accepted frame, the
callback is invoked zero times for that frame, and the loop still
schedules the next tick. -/
theorem c8_throw_skips_frame (st : ServiceState) (frame : VideoFrame)
    (hv : st.videoAttached = true) (hi : st.initialized = true)
    (hr : 2 ≤ frame.readyState) (hw : 0 < frame.videoWidth)
    (hh : 0 < frame.videoHeight) (ht : frame.currentTime ≠ st.lastVideoTime) :
    (loopBody st frame DetectOutcome.throws).published = [] ∧
    (loopBody st frame DetectOutcome.throws).detectCalls = 1 ∧
    (loopBody st frame DetectOutcome.throws).state.pending = true ∧
    (loopBody st frame DetectOutcome.throws).state.requestRef =
      Option.some st.nextId := by
  unfold loopBody
  rw [if_pos ⟨hv, hi⟩, if_pos ⟨hr, hw, hh, ht⟩]
  simp

/-- A ready, initialized service used by witnesses. -/
def wReadyService : ServiceState :=
  { initialized := true, videoAttached := true, lastVideoTime := -1,
    requestRef := Option.none, pending := false, nextId := 1 }

/-- A valid decoded frame at time 0, used by witnesses. -/
def wFrame : VideoFrame :=
  { readyState := 2, videoWidth := 1, videoHeight := 1, currentTime := 0 }

/-- Witness for C8: a throwing provider call on an accepted frame
publishes nothing. -/
theorem c8_throw_skips_frame_witness :
    (loopBody wReadyService wFrame DetectOutcome.throws).published = [] :=
  (c8_throw_skips_frame wReadyService wFrame rfl rfl (by decide) (by decide)
    (by decide) (by decide)).1

/-- Scheduler-handle invariant: the id counter stays positive and any
stored handle is nonzero (so the truthiness guard in `stop()` fires). -/
def RefInv (st : ServiceState) : Prop :=
  1 ≤ st.nextId ∧ ∀ i, st.requestRef = Option.some i → i ≠ 0

/-- Service states reachable from construction by events. -/
inductive ServiceReachable : ServiceState → Prop
  | new : ServiceReachable newService
  | step (st : ServiceState) (e : Event) :
      ServiceReachable st → ServiceReachable (stepEv st e).1

lemma refInv_loopBody (st : ServiceState) (f : VideoFrame) (o : DetectOutcome)
    (h : RefInv st) : RefInv (loopBody st f o).state := by
  obtain ⟨hn, -⟩ := h
  obtain ⟨href, hnext⟩ := loopBody_sched st f o
  constructor
  · rw [hnext]; omega
  · intro i hi
    rw [href] at hi
    injection hi with hi
    omega

lemma stop_fields (st : ServiceState) :
    (stop st).requestRef = st.requestRef ∧ (stop st).nextId = st.nextId ∧
    (stop st).lastVideoTime = st.lastVideoTime := by
  rcases hq : st.requestRef with _ | i
  · simp [stop, hq]
  · simp only [stop, hq]
    split_ifs
    · exact ⟨rfl, rfl, rfl⟩
    · exact ⟨hq, rfl, rfl⟩

lemma refInv_tick (st : ServiceState) (f : VideoFrame) (o : DetectOutcome)
    (h : RefInv st) : RefInv (tick st f o).state := by
  unfold tick
  split_ifs
  · exact refInv_loopBody _ f o h
  · exact h

lemma refInv_stop (st : ServiceState) (h : RefInv st) : RefInv (stop st) := by
  obtain ⟨h1, h2⟩ := h
  obtain ⟨hr, hn, -⟩ := stop_fields st
  exact ⟨hn ▸ h1, fun i hi => h2 i (hr ▸ hi)⟩

lemma reachable_refInv (st : ServiceState) (h : ServiceReachable st) :
    RefInv st := by
  induction h with
  | new => exact ⟨le_refl 1, fun i hi => by cases hi⟩
  | step st e hs ih =>
    cases e with
    | startEv f o => exact refInv_loopBody _ f o ih
    | stopEv => exact refInv_stop st ih
    | tickEv f o => exact refInv_tick st f o ih
    | initEv => exact ih

lemma stop_pending_of_false (st : ServiceState) (hp : st.pending = false) :
    (stop st).pending = false := by
  rcases hq : st.requestRef with _ | i
  · simp [stop, hq, hp]
  · simp only [stop, hq]
    split_ifs
    · rfl
    · exact hp

lemma pending_false_run (evs : List Event) :
    ∀ st : ServiceState, st.pending = false → (∀ e ∈ evs, NotStart e) →
    (runEvents st evs).1.pending = false ∧ (runEvents st evs).2 = [] := by
  induction evs with
  | nil => exact fun st hp _ => ⟨hp, rfl⟩
  | cons e es ih =>
    intro st hp hns
    have hne := hns e (List.mem_cons_self _ _)
    have hes : ∀ x ∈ es, NotStart x := fun x hx => hns x (List.mem_cons_of_mem _ hx)
    cases e with
    | startEv f o => exact hne.elim
    | stopEv =>
      have h2 := ih (stop st) (stop_pending_of_false st hp) hes
      simp only [runEvents, stepEv]
      exact ⟨h2.1, by simp [h2.2]⟩
    | tickEv f o =>
      have ht := tick_not_pending st f o hp
      simp only [runEvents, stepEv, ht]
      have h2 := ih st hp hes
      exact ⟨h2.1, by simp [h2.2]⟩
    | initEv =>
      have h2 := ih (finishInit st) hp hes
      simp only [runEvents, stepEv]
      exact ⟨h2.1, by simp [h2.2]⟩

/-- C9: calling `stop()` on a started service (one holding a scheduler
handle) cancels the pending re-scheduling, and no callback fires during
any subsequent run of events that contains no `start()` call. -/
theorem c9_stop_cancels (st : ServiceState) (hreach : ServiceReachable st)
    (hstarted : st.requestRef ≠ Option.none) (evs : List Event)
    (hns : ∀ e ∈ evs, NotStart e) :
    (stop st).pending = false ∧ (runEvents (stop st) evs).2 = [] := by
  obtain ⟨-, hid⟩ := reachable_refInv st hreach
  have hp : (stop st).pending = false := by
    rcases hq : st.requestRef with _ | i
    · exact absurd hq hstarted
    · simp only [stop, hq]
      rw [if_pos (hid i hq)]
  exact ⟨hp, (pending_false_run evs (stop st) hp hns).2⟩

/-- Witness for C9: stopping right after `start()` on a fresh service
leaves nothing pending. -/
theorem c9_stop_cancels_witness :
    (stop (stepEv newService (Event.startEv wFrame DetectOutcome.throws)).1).pending
      = false :=
  (c9_stop_cancels (stepEv newService (Event.startEv wFrame DetectOutcome.throws)).1
    (ServiceReachable.step newService (Event.startEv wFrame DetectOutcome.throws)
      ServiceReachable.new)
    (by decide) [] (fun e he => by cases he)).1

/-- C10: `stop()` and `start()` never write the frame-dedup marker, which
is `-1` at construction; after a stop/start restart, the loop body run by
`start()` on a frame whose playback time equals the pre-stop marker makes
no detection call and publishes nothing, leaving the marker unchanged. -/
theorem c10_marker_survives_restart (st : ServiceState) (frame : VideoFrame)
    (o : DetectOutcome) (ht : frame.currentTime = st.lastVideoTime) :
    newService.lastVideoTime = -1 ∧
    (stop st).lastVideoTime = st.lastVideoTime ∧
    (start (stop st) frame o).state.lastVideoTime = st.lastVideoTime ∧
    (start (stop st) frame o).detectCalls = 0 ∧
    (start (stop st) frame o).published = [] := by
  obtain ⟨-, -, hlast⟩ := stop_fields st
  have hgate : ¬(2 ≤ frame.readyState ∧ 0 < frame.videoWidth ∧
      0 < frame.videoHeight ∧ frame.currentTime ≠
        ({ stop st with videoAttached := true } : ServiceState).lastVideoTime) := by
    rintro ⟨-, -, -, hne⟩
    apply hne
    show frame.currentTime = (stop st).lastVideoTime
    rw [hlast]
    exact ht
  obtain ⟨h1, h2, h3, -, -⟩ :=
    loopBody_skip { stop st with videoAttached := true } frame o (Or.inr hgate)
  refine ⟨rfl, hlast, ?_, h1, h2⟩
  show (loopBody { stop st with videoAttached := true } frame o).state.lastVideoTime
    = st.lastVideoTime
  rw [h3]
  exact hlast

/-- Witness for C10: restarting a fresh service on a frame at the initial
marker time makes no detection call. -/
theorem c10_marker_survives_restart_witness :
    (start (stop newService) wSkipFrame DetectOutcome.throws).detectCalls = 0 :=
  (c10_marker_survives_restart newService wSkipFrame DetectOutcome.throws
    rfl).2.2.2.1

end ChristmasTree
